import Mathlib

/-!
Verification of the streaming interception core of the promptlayer client
library (`promptlayer/utils.py`): the `GeneratorProxy` stream proxy, its
per-chunk termination check (`_abstracted_next`, lines 424 to 465), the
`cleaned_result` reassembly fold (lines 467 to 525) and the fire-and-forget
dispatch `promptlayer_api_request` (lines 132 to 187).

Python objects are modelled shallowly: a chunk is a record of optional
fields where `none` stands for an absent attribute (a false `hasattr`).
Places where the Python code would raise (AttributeError, IndexError, or
the uncaught JSON decoding error of `response.json()`) are modelled with
`Option` / `Except` so that a crash is an observable outcome, never a
silently invented value.
-/

namespace PromptLayer

/-- Identifier returned by the logging backend (the `request_id` field). -/
abbrev RequestId := Nat

/-- Truthiness of a Python string-or-None value: `None` and the empty
string are falsy, every other string is truthy. -/
def pyTruthyStr : Option String → Bool
  | none => false
  | some s => s != ""

/-- Usage block of an anthropic message; its exact fields are irrelevant
to the claims beyond being a value that can be cleared. -/
structure Usage where
  input_tokens : Nat := 0
  output_tokens : Nat := 0
deriving DecidableEq, Repr, Inhabited

/-- A content block (anthropic): `text` is `none` when the attribute is
absent (`hasattr(result.content_block, "text")` false). -/
structure ContentBlock where
  type : String := "text"
  text : Option String := none
deriving DecidableEq, Repr, Inhabited

/-- An anthropic message object. `stop_reason` holds the Python value
(`none` models Python `None`); `usage` is clearable; `content` is the
block list rewritten by reassembly. -/
structure Message where
  stop_reason : Option String := none
  usage : Option Usage := none
  content : List ContentBlock := []
deriving DecidableEq, Repr, Inhabited

/-- The `message` attribute of a chunk: either a plain string or a message
object; `isinstance(result.message, str)` distinguishes the two. -/
inductive MessageVal
  | str (s : String)
  | obj (m : Message)
deriving DecidableEq, Repr, Inhabited

/-- A delta object. For openai chat deltas, `role` and `content` are
`none` when the attribute is absent and `some none` when the attribute is
present with value `None`; for anthropic text deltas, `text` is `none`
when absent. -/
structure Delta where
  role : Option (Option String) := none
  content : Option (Option String) := none
  text : Option String := none
deriving DecidableEq, Repr, Inhabited

/-- One element of an openai chunk's `choices` list. `finish_reason`
holds the Python value (`none` models Python `None`, present on every
streamed choice); `text` and `delta` are `none` when absent. -/
structure Choice where
  finish_reason : Option String := none
  text : Option String := none
  delta : Option Delta := none
deriving DecidableEq, Repr, Inhabited

/-- A streamed chunk, as the duck-typed union of every attribute the
proxy reads. `none` means the attribute is absent; for `stop_reason` the
outer option is attribute presence and the inner one the Python value.
Presence of `type` also models the `"type" in result` membership test of
line 479. -/
structure Chunk where
  stop_reason : Option (Option String) := none
  message : Option MessageVal := none
  type : Option String := none
  completion : Option String := none
  content_block : Option ContentBlock := none
  delta : Option Delta := none
  choices : List Choice := []
deriving DecidableEq, Repr, Inhabited

/-- The value `cleaned_result` returns: a modified deep copy of the last
chunk, a copy of the last chunk whose first choice was replaced by the
accumulated role/content dict (openai delta shape), a rebuilt anthropic
message, or the bare fallback empty string. -/
inductive CleanedOutput
  | chunk (c : Chunk)
  | chunkRecord (c : Chunk) (role content : String)
  | message (m : Message)
  | emptyStr
deriving DecidableEq, Repr

/-- A chunk l-value inside `cleaned_result`: `deepcopy` produces a
detached `fresh` value, while binding a buffer element directly would
produce a `buffered` alias whose mutation writes back into the buffer.
The source deep-copies before every mutation; keeping the alias case in
the model makes that observable rather than assumed. -/
inductive ChunkRef
  | buffered (i : Nat)
  | fresh (c : Chunk)
deriving Repr

/-- Read a chunk reference against the buffer. -/
def ChunkRef.get (rs : List Chunk) : ChunkRef → Chunk
  | .buffered i => rs.getD i default
  | .fresh c => c

/-- Attribute assignment through a chunk reference: on a buffered alias
it mutates the buffer, on a deep copy it only changes the detached
value. -/
def ChunkRef.write (r : ChunkRef) (rs : List Chunk) (f : Chunk → Chunk) :
    List Chunk × ChunkRef :=
  match r with
  | .buffered i => (rs.set i (f (rs.getD i default)), .buffered i)
  | .fresh c => (rs, .fresh (f c))

/-- The last elif of the anthropic accumulation loop (lines 483 to 484):
contribute `delta.text` when both attributes are present, else nothing. -/
def anthropicDeltaPiece (r : Chunk) : String :=
  match r.delta with
  | some d => d.text.getD ""
  | none => ""

/-- Text contributed by one chunk in the anthropic accumulation loop of
`cleaned_result` (lines 471 to 484): the elif chain tries `completion`,
then a plain-string `message`, then `content_block.text` guarded by a
present `type` different from "message_stop", then `delta.text`. -/
def anthropicPiece (r : Chunk) : String :=
  match r.completion with
  | some s => s
  | none =>
    match r.message with
    | some (.str s) => s
    | _ =>
      match r.content_block, r.type with
      | some cb, some ty =>
        match cb.text with
        | some t => if ty == "message_stop" then anthropicDeltaPiece r else t
        | none => anthropicDeltaPiece r
      | _, _ => anthropicDeltaPiece r

/-- The full anthropic accumulation fold of `cleaned_result`. -/
def anthropicConcat (rs : List Chunk) : String :=
  rs.foldl (fun acc r => acc ++ anthropicPiece r) ""

/-- One step of the openai plain-text accumulation (lines 500 to 501):
`response += result.choices[0].text`, raising when `choices` is empty or
`text` is absent. -/
def openaiTextStep (acc : String) (r : Chunk) : Option String := do
  let ch ← r.choices.head?
  let t ← ch.text
  pure (acc ++ t)

/-- One step of the openai delta accumulation (lines 509 to 521): the
role is overwritten by a present non-None role delta, the content is
extended by a present non-None content delta; raises when `choices` is
empty or the first choice has no `delta`. -/
def openaiDeltaStep (acc : String × String) (r : Chunk) :
    Option (String × String) := do
  let ch ← r.choices.head?
  let d ← ch.delta
  let role := match d.role with
    | some (some s) => s
    | _ => acc.1
  let content := match d.content with
    | some (some s) => acc.2 ++ s
    | _ => acc.2
  pure (role, content)

/-- Reassembly `cleaned_result` (lines 467 to 525), with the buffer
threaded through explicitly so that a write to a buffered alias would be
observable; every value the source mutates is a `deepcopy`, i.e. a
`ChunkRef.fresh`. The payload is `none` exactly where Python raises. -/
def cleaned_result (provider_type : String) (rs : List Chunk) :
    List Chunk × Option CleanedOutput :=
  if provider_type == "anthropic" then
    let response := anthropicConcat rs
    match rs.getLast? with
    | none => (rs, none)
    | some last =>
      if last.type == some "message_stop" then
        (rs, do
          let r0 ← rs.head?
          let mv ← r0.message
          match mv with
          | .str _ => none
          | .obj m => do
            let r1 ← rs[1]?
            let cb ← r1.content_block
            pure (CleanedOutput.message
              { m with usage := none,
                       content := [{ cb with text := some response }] }))
      else
        let fr := ChunkRef.fresh last
        let (rs2, fr2) := fr.write rs (fun c => { c with completion := some response })
        (rs2, some (.chunk (fr2.get rs2)))
  else
    match rs.head? with
    | none => (rs, none)
    | some r0 =>
      match r0.choices.head? with
      | none => (rs, none)
      | some ch0 =>
        if ch0.text.isSome then
          match rs.foldlM openaiTextStep "" with
          | none => (rs, none)
          | some response =>
            match rs.getLast? with
            | none => (rs, none)
            | some last =>
              let fr := ChunkRef.fresh last
              let (rs2, fr2) := fr.write rs (fun c =>
                { c with choices :=
                    match c.choices with
                    | [] => []
                    | ch :: t => { ch with text := some response } :: t })
              (rs2, some (.chunk (fr2.get rs2)))
        else if ch0.delta.isSome then
          match rs.foldlM openaiDeltaStep ("", "") with
          | none => (rs, none)
          | some rc =>
            match rs.getLast? with
            | none => (rs, none)
            | some last => (rs, some (.chunkRecord last rc.1 rc.2))
        else (rs, some .emptyStr)

/-- The anthropic arm of the termination check (lines 429 to 435): an
elif chain on a present `stop_reason`, a present `message` whose
`stop_reason` is read, then `type == "message_stop"`; `none` when the
chunk's `message` is a plain string, since Python would raise reading
`stop_reason` on a `str`. -/
def anthropicEnd (c : Chunk) : Option Bool :=
  match c.stop_reason with
  | some v => some (pyTruthyStr v)
  | none =>
    match c.message with
    | some (.obj m) => some (pyTruthyStr m.stop_reason)
    | some (.str _) => none
    | none =>
      match c.type with
      | some t => some (t == "message_stop")
      | none => some false

/-- The openai arm of the termination check (lines 437 to 440): the first
choice's `finish_reason` equals "stop" or "length"; `none` when `choices`
is empty, where Python raises an IndexError. -/
def openaiEnd (c : Chunk) : Option Bool :=
  match c.choices with
  | ch :: _ => some (ch.finish_reason == some "stop" || ch.finish_reason == some "length")
  | [] => none

/-- Whether a chunk triggers dispatch, combining both arms exactly as
`_abstracted_next` does: each arm is only evaluated for its own provider
string, as the Python `and` short-circuits on the provider check. -/
def isTerminal (provider_type : String) (c : Chunk) : Option Bool := do
  let ea ← if provider_type == "anthropic" then anthropicEnd c else pure false
  let eo ← if provider_type == "openai" then openaiEnd c else pure false
  pure (ea || eo)

/-- An HTTP response from the logging backend: `body` is `none` when the
payload is not valid JSON (so `.json()` raises a JSON decoding error),
else the value of the body's `request_id` field, `none` when absent. -/
structure HttpResponse where
  status_code : Nat
  body : Option (Option RequestId)
deriving DecidableEq, Repr

/-- Outcome of the `requests.post` call: a response object, or a raised
network exception. -/
inductive PostResult
  | resp (r : HttpResponse)
  | raised
deriving DecidableEq, Repr

/-- The fire-and-forget dispatch `promptlayer_api_request` (lines 132 to
187). The POST and the status check sit inside try/except and only print
warnings, but the final `request_response.json().get("request_id")` runs
outside the try block, so a non-JSON body raises when `return_pl_id` is
set. Returns the function result, or the uncaught exception, paired with
the number of warnings printed to stderr. -/
def promptlayer_api_request (return_pl_id : Bool) (post : PostResult) :
    Except String (Option RequestId) × Nat :=
  match post with
  | .raised => (Except.ok none, 1)
  | .resp r =>
    let warns := if r.status_code != 200 then 1 else 0
    if return_pl_id then
      match r.body with
      | none => (Except.error "JSONDecodeError", warns)
      | some rid => (Except.ok rid, warns)
    else (Except.ok none, warns)

/-- Unwrap the dispatch result: `none` when the call raised through. -/
def exceptValue : Except String (Option RequestId) → Option (Option RequestId)
  | .ok v => some v
  | .error _ => none

/-- The proxy state `_abstracted_next` touches: the provider discriminant
and `return_pl_id` flag frozen in the call arguments, plus the chunk
buffer `results`. -/
structure Proxy where
  provider_type : String
  return_pl_id : Bool
  results : List Chunk := []
deriving DecidableEq, Repr

/-- Value returned to the caller by one `next` step: the bare chunk, or
the (chunk, request id) pair when `return_pl_id` is set. -/
inductive StepReturn
  | bare (c : Chunk)
  | paired (c : Chunk) (request_id : Option RequestId)
deriving DecidableEq, Repr

/-- One step of `GeneratorProxy._abstracted_next` (lines 424 to 465):
append the chunk to the buffer before any check, evaluate the termination
check, and on a terminal chunk reassemble the whole buffer and dispatch
it; `post` is the transport outcome that dispatch observes. Yields the
new state, the caller-visible return and, when a dispatch happened, the
buffer and payload it sent; `none` where Python raises. -/
def abstracted_next (p : Proxy) (result : Chunk) (post : PostResult) :
    Option (Proxy × StepReturn × Option (List Chunk × CleanedOutput)) := do
  let results := p.results ++ [result]
  let term ← isTerminal p.provider_type result
  if term then
    let (results2, cl) := cleaned_result p.provider_type results
    let cleaned ← cl
    let request_id ← exceptValue (promptlayer_api_request p.return_pl_id post).1
    let ret := if p.return_pl_id then StepReturn.paired result request_id
               else StepReturn.bare result
    pure ({ p with results := results2 }, ret, some (results, cleaned))
  else
    let ret := if p.return_pl_id then StepReturn.paired result none
               else StepReturn.bare result
    pure ({ p with results := results }, ret, none)

/-- Iterating the proxy over a list of (chunk, transport outcome) pairs,
collecting each step's caller-visible return and dispatch event. -/
def runStream (p : Proxy) :
    List (Chunk × PostResult) →
    Option (Proxy × List (StepReturn × Option (List Chunk × CleanedOutput)))
  | [] => some (p, [])
  | (c, post) :: rest => do
    let (p1, ret, ev) ← abstracted_next p c post
    let (p2, outs) ← runStream p1 rest
    pure (p2, (ret, ev) :: outs)

/-! Spec-side definitions, written from the specification's wording, used
to compare the code's behaviour against the claims. -/

/-- The anthropic termination condition exactly as the claim words it: a
plain three-way disjunction with no ordering between the attribute
checks. -/
def specAnthropicTerminal (c : Chunk) : Bool :=
  (match c.stop_reason with | some v => pyTruthyStr v | none => false)
  || (match c.message with | some (.obj m) => pyTruthyStr m.stop_reason | _ => false)
  || (c.type == some "message_stop")

/-- Amended anthropic termination condition: the three attribute checks
are tried in order and the first attribute present on the chunk decides,
shadowing the later checks. -/
def orderedAnthropicTerminal (c : Chunk) : Prop :=
  (∃ v, c.stop_reason = some v ∧ pyTruthyStr v = true)
  ∨ (c.stop_reason = none ∧ ∃ m, c.message = some (.obj m) ∧ pyTruthyStr m.stop_reason = true)
  ∨ (c.stop_reason = none ∧ c.message = none ∧ c.type = some "message_stop")

/-- Role delta of a chunk, spec side: the first choice's delta role. -/
def roleDelta (c : Chunk) : Option (Option String) :=
  ((c.choices.headD default).delta.getD default).role

/-- Content delta of a chunk, spec side. -/
def contentDelta (c : Chunk) : Option (Option String) :=
  ((c.choices.headD default).delta.getD default).content

/-- Last non-null role delta over the chunks, starting from the empty
string. -/
def specLastRole (rs : List Chunk) : String :=
  rs.foldl (fun acc c => match roleDelta c with | some (some r) => r | _ => acc) ""

/-- In-order concatenation of all non-null content deltas. -/
def specContentConcat (rs : List Chunk) : String :=
  rs.foldl (fun acc c => match contentDelta c with | some (some s) => acc ++ s | _ => acc) ""

/-- Per-chunk accumulation as the spec phrases it: the first present of
completion, a plain-string message, the content block text (excluding a
message-stop marker chunk) and the delta text. -/
def specAnthropicPiece (r : Chunk) : String :=
  match r.completion with
  | some s => s
  | none =>
    match r.message with
    | some (.str s) => s
    | _ =>
      match r.content_block with
      | some cb =>
        match cb.text with
        | some t =>
          if r.type == some "message_stop" then anthropicDeltaPiece r else t
        | none => anthropicDeltaPiece r
      | none => anthropicDeltaPiece r

/-- The spec-side anthropic accumulation string. -/
def specAnthropicConcat (rs : List Chunk) : String :=
  rs.foldl (fun acc r => acc ++ specAnthropicPiece r) ""

/-- In-order concatenation of every chunk's completion field. -/
def specCompletionConcat (rs : List Chunk) : String :=
  rs.foldl (fun acc r => acc ++ r.completion.getD "") ""

/-! Helper lemmas. -/

/-- Reassembly leaves the buffer untouched: every write in
`cleaned_result` goes through a detached deep copy. -/
theorem cleaned_result_fst (pt : String) (rs : List Chunk) :
    (cleaned_result pt rs).1 = rs := by
  unfold cleaned_result
  repeat' split
  all_goals rfl

/-- On the anthropic provider only the anthropic arm runs. -/
theorem isTerminal_anthropic (c : Chunk) :
    isTerminal "anthropic" c = (anthropicEnd c).bind (fun ea => some (ea || false)) := rfl

/-- On the openai provider only the openai arm runs. -/
theorem isTerminal_openai (c : Chunk) :
    isTerminal "openai" c = (openaiEnd c).bind (fun eo => some (false || eo)) := rfl

/-! Claim theorems. -/

/-- C9: for every non-empty buffer, `cleaned_result` never mutates any
buffered chunk: the buffer it returns equals the input buffer field for
field, because each final object is built from deep copies of the chunks
it uses as templates. (The statement holds for every buffer, empty ones
included.) -/
theorem C9_reassembly_no_mutation (provider_type : String) (rs : List Chunk) :
    (cleaned_result provider_type rs).1 = rs :=
  cleaned_result_fst provider_type rs

/-- C8: for every non-empty buffer whose chunks match none of the
recognized reassembly shapes (provider other than "anthropic", and
neither a `text` nor a `delta` field on the first chunk's first choice),
`cleaned_result` returns the empty-string fallback and does not fail. -/
theorem C8_unrecognized_shape_empty_string (pt : String) (rs : List Chunk)
    (r0 : Chunk) (ch0 : Choice)
    (hpt : pt ≠ "anthropic")
    (h0 : rs.head? = some r0)
    (hch : r0.choices.head? = some ch0)
    (htext : ch0.text = none)
    (hdelta : ch0.delta = none) :
    cleaned_result pt rs = (rs, some CleanedOutput.emptyStr) := by
  have hb : (pt == "anthropic") = false := by simp [hpt]
  simp [cleaned_result, hb, h0, hch, htext, hdelta]

/-- Witness for C8 at a concrete one-chunk buffer whose single choice has
neither `text` nor `delta`. -/
theorem C8_unrecognized_shape_empty_string_witness :
    cleaned_result "openai" [{ choices := [{}] }] =
      ([{ choices := [{}] }], some CleanedOutput.emptyStr) :=
  C8_unrecognized_shape_empty_string "openai" [{ choices := [{}] }]
    { choices := [{}] } {} (by decide) rfl rfl rfl rfl

/-- C6 fails on the code: when `return_pl_id` is set and the backend
answers status 500 with a body that is not valid JSON, the final
`request_response.json().get("request_id")` of `promptlayer_api_request`
runs outside the try block, so the JSON decoding error propagates to the
caller instead of being reduced to a warning with a null correlation id.
The status check itself did print one warning before the raise. -/
theorem C6_dispatch_raises_on_bad_body :
    promptlayer_api_request true (.resp { status_code := 500, body := none }) =
      (Except.error "JSONDecodeError", 1) := rfl

/-- C10: the proxy keeps no dispatched flag, so every chunk satisfying
the termination check triggers its own reassembly and dispatch over the
entire buffer: on a stream with two terminal anthropic chunks, two
dispatches occur and the second one carries all chunks of the first. -/
theorem C10_every_terminal_chunk_redispatches :
    runStream { provider_type := "anthropic", return_pl_id := false, results := [] }
      [({ stop_reason := some (some "stop_sequence"), completion := some "a" }, .raised),
       ({ stop_reason := some (some "max_tokens"), completion := some "b" }, .raised)] =
    some ({ provider_type := "anthropic", return_pl_id := false,
            results := [{ stop_reason := some (some "stop_sequence"), completion := some "a" },
                        { stop_reason := some (some "max_tokens"), completion := some "b" }] },
      [(.bare { stop_reason := some (some "stop_sequence"), completion := some "a" },
        some ([{ stop_reason := some (some "stop_sequence"), completion := some "a" }],
          .chunk { stop_reason := some (some "stop_sequence"), completion := some "a" })),
       (.bare { stop_reason := some (some "max_tokens"), completion := some "b" },
        some ([{ stop_reason := some (some "stop_sequence"), completion := some "a" },
               { stop_reason := some (some "max_tokens"), completion := some "b" }],
          .chunk { stop_reason := some (some "max_tokens"), completion := some "ab" }))]) := rfl

/-- C2 fails as stated: a chunk carrying a present-but-falsy
`stop_reason` attribute together with `type = "message_stop"` satisfies
the claimed disjunction, but the elif chain of `_abstracted_next` stops
at the falsy `stop_reason` and classifies the chunk as non-terminal. -/
theorem C2_counterexample :
    isTerminal "anthropic" { stop_reason := some none, type := some "message_stop" } = some false
    ∧ specAnthropicTerminal { stop_reason := some none, type := some "message_stop" } = true := by
  constructor <;> rfl

/-- C2 amended: for provider "openai" a chunk with a first choice is
terminal iff that choice's finish reason equals "stop" or "length"; for
provider "anthropic" the three attribute checks are tried in order and
the first attribute present decides (a present `stop_reason` shadows
`message`, which shadows the `type` marker). -/
theorem C2_termination_predicate (c : Chunk) :
    (isTerminal "anthropic" c = some true ↔ orderedAnthropicTerminal c)
    ∧ (∀ ch t, c.choices = ch :: t →
        (isTerminal "openai" c = some true ↔
          (ch.finish_reason = some "stop" ∨ ch.finish_reason = some "length"))) := by
  constructor
  · rw [isTerminal_anthropic]
    unfold orderedAnthropicTerminal anthropicEnd
    rcases hsr : c.stop_reason with _ | v
    · rcases hm : c.message with _ | mv
      · rcases hty : c.type with _ | t
        · simp [hsr, hm, hty]
        · simp [hsr, hm, hty, beq_iff_eq]
      · rcases mv with s | m
        · simp [hsr, hm]
        · simp [hsr, hm]
    · simp [hsr]
  · intro ch t hch
    rw [isTerminal_openai]
    unfold openaiEnd
    rw [hch]
    simp

/-- Witness for C2 at a concrete terminal openai chunk. -/
theorem C2_termination_predicate_witness :
    isTerminal "openai" { choices := [{ finish_reason := some "stop" }] } = some true :=
  ((C2_termination_predicate { choices := [{ finish_reason := some "stop" }] }).2
    { finish_reason := some "stop" } [] rfl).mpr (Or.inl rfl)

/-- When every chunk carries a `completion` attribute, the accumulation
loop reduces to concatenating the completions. -/
theorem anthropicConcat_of_completion (rs : List Chunk)
    (h : ∀ c ∈ rs, c.completion.isSome) :
    anthropicConcat rs = specCompletionConcat rs := by
  unfold anthropicConcat specCompletionConcat
  refine List.foldl_ext _ _ _ (fun a c hc => ?_)
  obtain ⟨s, hs⟩ := Option.isSome_iff_exists.mp (h c hc)
  simp [anthropicPiece, hs]

/-- C5: for every non-empty buffer of anthropic legacy completion chunks
(each carrying a `completion` field, last chunk not a message-stop
marker), `cleaned_result` returns a deep copy of the last chunk whose
completion field is the in-order concatenation of every chunk's
completion. -/
theorem C5_legacy_completion (rs : List Chunk) (last : Chunk)
    (hlast : rs.getLast? = some last)
    (hcomp : ∀ c ∈ rs, c.completion.isSome)
    (hstop : last.type ≠ some "message_stop") :
    cleaned_result "anthropic" rs =
      (rs, some (.chunk { last with completion := some (specCompletionConcat rs) })) := by
  have hb : (last.type == some "message_stop") = false := by simp [hstop]
  simp [cleaned_result, hlast, hb, ChunkRef.write, ChunkRef.get,
    anthropicConcat_of_completion rs hcomp]

/-- Witness for C5: completions "foo" and "bar" reassemble to "foobar". -/
theorem C5_legacy_completion_witness :
    cleaned_result "anthropic" [{ completion := some "foo" }, { completion := some "bar" }] =
      ([{ completion := some "foo" }, { completion := some "bar" }],
        some (.chunk { completion := some "foobar" })) := by
  have h := C5_legacy_completion
    [{ completion := some "foo" }, { completion := some "bar" }]
    { completion := some "bar" } rfl (by decide) (by decide)
  have e : specCompletionConcat
      [{ completion := some "foo" }, { completion := some "bar" }] = "foobar" := rfl
  rw [e] at h
  exact h

/-- When a chunk carries a `type` attribute, the code's accumulation
piece coincides with the spec's wording of it. -/
theorem anthropicPiece_eq_spec (c : Chunk) (h : c.type.isSome) :
    anthropicPiece c = specAnthropicPiece c := by
  obtain ⟨sr, msg, cty, comp, cb, d, chs⟩ := c
  obtain ⟨ty, rfl⟩ : ∃ t, cty = some t := Option.isSome_iff_exists.mp h
  unfold anthropicPiece specAnthropicPiece
  rcases comp with _ | s
  · rcases msg with _ | mv
    · rcases cb with _ | ⟨bt, btext⟩
      · rfl
      · rcases btext with _ | t <;> rfl
    · rcases mv with s | mm
      · rfl
      · rcases cb with _ | ⟨bt, btext⟩
        · rfl
        · rcases btext with _ | t <;> rfl
  · rfl

/-- When every chunk carries a `type` attribute, the accumulation loop
equals the spec-side accumulation. -/
theorem anthropicConcat_eq_spec (rs : List Chunk)
    (h : ∀ c ∈ rs, c.type.isSome) :
    anthropicConcat rs = specAnthropicConcat rs := by
  unfold anthropicConcat specAnthropicConcat
  refine List.foldl_ext _ _ _ (fun a c hc => ?_)
  rw [anthropicPiece_eq_spec c (h c hc)]

/-- C4: for every non-empty buffer of anthropic message/event chunks
(each carrying a `type`) whose last chunk is the message-stop marker and
whose first chunk carries a message object, `cleaned_result` returns a
deep copy of the first chunk's message with its usage cleared and its
content set to a single block copied from the second chunk's
`content_block` with its text replaced by the accumulated string. -/
theorem C4_message_stream (rs : List Chunk) (r0 r1 last : Chunk)
    (m : Message) (cb : ContentBlock)
    (h0 : rs.head? = some r0)
    (h1 : rs[1]? = some r1)
    (hlast : rs.getLast? = some last)
    (hstop : last.type = some "message_stop")
    (hm : r0.message = some (.obj m))
    (hcb : r1.content_block = some cb)
    (hty : ∀ c ∈ rs, c.type.isSome) :
    cleaned_result "anthropic" rs =
      (rs, some (.message { m with
                            usage := none,
                            content := [{ cb with text := some (specAnthropicConcat rs) }] })) := by
  have hb : (last.type == some "message_stop") = true := by simp [hstop]
  simp [cleaned_result, hlast, hb, h0, hm, h1, hcb, anthropicConcat_eq_spec rs hty]

/-- Witness for C4: a four-event anthropic message stream reassembles to
the first chunk's message with one "Hi" text block and no usage. -/
theorem C4_message_stream_witness :
    cleaned_result "anthropic"
      [{ type := some "message_start",
         message := some (.obj { stop_reason := none, usage := some {}, content := [] }) },
       { type := some "content_block_start",
         content_block := some { type := "text", text := some "" } },
       { type := some "content_block_delta", delta := some { text := some "Hi" } },
       { type := some "message_stop" }] =
      ([{ type := some "message_start",
          message := some (.obj { stop_reason := none, usage := some {}, content := [] }) },
        { type := some "content_block_start",
          content_block := some { type := "text", text := some "" } },
        { type := some "content_block_delta", delta := some { text := some "Hi" } },
        { type := some "message_stop" }],
       some (.message { stop_reason := none, usage := none,
                        content := [{ type := "text", text := some "Hi" }] })) := by
  have h := C4_message_stream
    [{ type := some "message_start",
       message := some (.obj { stop_reason := none, usage := some {}, content := [] }) },
     { type := some "content_block_start",
       content_block := some { type := "text", text := some "" } },
     { type := some "content_block_delta", delta := some { text := some "Hi" } },
     { type := some "message_stop" }]
    _ _ _ { stop_reason := none, usage := some {}, content := [] }
    { type := "text", text := some "" }
    rfl rfl rfl rfl rfl rfl (by decide)
  have e : specAnthropicConcat
      [{ type := some "message_start",
         message := some (.obj { stop_reason := none, usage := some {}, content := [] }) },
       { type := some "content_block_start",
         content_block := some { type := "text", text := some "" } },
       { type := some "content_block_delta", delta := some { text := some "Hi" } },
       { type := some "message_stop" }] = "Hi" := rfl
  rw [e] at h
  exact h

/-- One pure step of the paired role/content accumulation, spec side. -/
def specDeltaStep (acc : String × String) (c : Chunk) : String × String :=
  ((match roleDelta c with | some (some r) => r | _ => acc.1),
   (match contentDelta c with | some (some s) => acc.2 ++ s | _ => acc.2))

/-- The paired fold computes exactly the two independent spec folds. -/
theorem specDeltaFold_proj (rs : List Chunk) (a b : String) :
    rs.foldl specDeltaStep (a, b) =
      (rs.foldl (fun acc c => match roleDelta c with | some (some r) => r | _ => acc) a,
       rs.foldl (fun acc c => match contentDelta c with | some (some s) => acc ++ s | _ => acc) b) := by
  induction rs generalizing a b with
  | nil => rfl
  | cons c rest ih =>
    simp only [List.foldl_cons]
    rw [specDeltaStep, ih]

/-- When every chunk has a first choice carrying a `delta`, the effectful
openai delta accumulation succeeds and equals the pure paired fold. -/
theorem openaiDeltaFoldM (rs : List Chunk) (p : String × String)
    (hall : ∀ c ∈ rs, ∃ ch t d, c.choices = ch :: t ∧ ch.delta = some d) :
    rs.foldlM openaiDeltaStep p = some (rs.foldl specDeltaStep p) := by
  induction rs generalizing p with
  | nil => rfl
  | cons c rest ih =>
    obtain ⟨ch, t, d, hch, hd⟩ := hall c (List.mem_cons_self c rest)
    have hstep : openaiDeltaStep p c = some (specDeltaStep p c) := by
      simp [openaiDeltaStep, specDeltaStep, hch, hd, roleDelta, contentDelta]
    rw [List.foldlM_cons, hstep]
    simpa using ih (specDeltaStep p c) (fun x hx => hall x (List.mem_cons_of_mem c hx))

/-- C3: for every non-empty buffer of openai chunks in the delta/chat
shape (first chunk's first choice has a `delta` and no `text`, and every
chunk has a first choice carrying a `delta`), `cleaned_result` returns a
deep copy of the last chunk whose first choice is replaced by the record
of the last non-null role delta and the in-order concatenation of all
non-null content deltas. -/
theorem C3_delta_chat (rs : List Chunk) (r0 last : Chunk) (ch0 : Choice)
    (h0 : rs.head? = some r0)
    (hch : r0.choices.head? = some ch0)
    (htext : ch0.text = none)
    (hdelta : ch0.delta.isSome)
    (hlast : rs.getLast? = some last)
    (hall : ∀ c ∈ rs, ∃ ch t d, c.choices = ch :: t ∧ ch.delta = some d) :
    cleaned_result "openai" rs =
      (rs, some (.chunkRecord last (specLastRole rs) (specContentConcat rs))) := by
  have hfold := openaiDeltaFoldM rs ("", "") hall
  rw [specDeltaFold_proj] at hfold
  simp [cleaned_result, h0, hch, htext, hdelta, hfold, hlast,
    specLastRole, specContentConcat]

/-- Witness for C3: content deltas "Hel", "lo", " world" with a final
role "assistant" reassemble to the record ("assistant", "Hello world"). -/
theorem C3_delta_chat_witness :
    cleaned_result "openai"
      [{ choices := [{ delta := some { role := some (some "assistant"),
                                       content := some (some "Hel") } }] },
       { choices := [{ delta := some { content := some (some "lo") } }] },
       { choices := [{ finish_reason := some "stop",
                       delta := some { content := some (some " world") } }] }] =
      ([{ choices := [{ delta := some { role := some (some "assistant"),
                                        content := some (some "Hel") } }] },
        { choices := [{ delta := some { content := some (some "lo") } }] },
        { choices := [{ finish_reason := some "stop",
                        delta := some { content := some (some " world") } }] }],
       some (.chunkRecord
         { choices := [{ finish_reason := some "stop",
                         delta := some { content := some (some " world") } }] }
         "assistant" "Hello world")) := by
  have h := C3_delta_chat
    [{ choices := [{ delta := some { role := some (some "assistant"),
                                     content := some (some "Hel") } }] },
     { choices := [{ delta := some { content := some (some "lo") } }] },
     { choices := [{ finish_reason := some "stop",
                     delta := some { content := some (some " world") } }] }]
    _ _ _ rfl rfl rfl (by decide) rfl
    (by intro c hc; simp only [List.mem_cons, List.not_mem_nil, or_false] at hc
        rcases hc with rfl | rfl | rfl <;> exact ⟨_, _, _, rfl, rfl⟩)
  have er : specLastRole
      [{ choices := [{ delta := some { role := some (some "assistant"),
                                       content := some (some "Hel") } }] },
       { choices := [{ delta := some { content := some (some "lo") } }] },
       { choices := [{ finish_reason := some "stop",
                       delta := some { content := some (some " world") } }] }] = "assistant" := rfl
  have ec : specContentConcat
      [{ choices := [{ delta := some { role := some (some "assistant"),
                                       content := some (some "Hel") } }] },
       { choices := [{ delta := some { content := some (some "lo") } }] },
       { choices := [{ finish_reason := some "stop",
                       delta := some { content := some (some " world") } }] }] = "Hello world" := rfl
  rw [er, ec] at h
  exact h

/-- A non-terminal chunk is appended to the buffer and returned with a
null correlation id, with no dispatch. -/
theorem abstracted_next_nonterminal (p : Proxy) (c : Chunk) (post : PostResult)
    (h : isTerminal p.provider_type c = some false) :
    abstracted_next p c post =
      some ({ p with results := p.results ++ [c] },
        (if p.return_pl_id then StepReturn.paired c none else .bare c), none) := by
  simp [abstracted_next, h]

/-- A terminal chunk whose reassembly and dispatch succeed is appended,
dispatched with the whole buffer, and returned with the dispatch id. -/
theorem abstracted_next_terminal (p : Proxy) (c : Chunk) (post : PostResult)
    (out : CleanedOutput) (rid : Option RequestId)
    (hterm : isTerminal p.provider_type c = some true)
    (hcl : (cleaned_result p.provider_type (p.results ++ [c])).2 = some out)
    (hapi : (promptlayer_api_request p.return_pl_id post).1 = Except.ok rid) :
    abstracted_next p c post =
      some ({ p with results := p.results ++ [c] },
        (if p.return_pl_id then StepReturn.paired c rid else .bare c),
        some (p.results ++ [c], out)) := by
  have hcr : cleaned_result p.provider_type (p.results ++ [c]) = (p.results ++ [c], some out) := by
    rcases h2 : cleaned_result p.provider_type (p.results ++ [c]) with ⟨x, y⟩
    have h1 := cleaned_result_fst p.provider_type (p.results ++ [c])
    rw [h2] at h1 hcl
    simp only at h1 hcl
    rw [h1, hcl]
  simp [abstracted_next, hterm, hcr, hapi, exceptValue]

/-- Running the proxy over non-terminal chunks only appends them to the
buffer, returns each one with a null correlation id, and dispatches
nothing. -/
theorem runStream_nonterminal (pt : String) (rpl : Bool) (b : List Chunk)
    (cs : List (Chunk × PostResult))
    (h : ∀ cp ∈ cs, isTerminal pt cp.1 = some false) :
    runStream { provider_type := pt, return_pl_id := rpl, results := b } cs =
      some ({ provider_type := pt, return_pl_id := rpl, results := b ++ cs.map Prod.fst },
        cs.map fun cp => ((if rpl then StepReturn.paired cp.1 none else .bare cp.1), none)) := by
  induction cs generalizing b with
  | nil => simp [runStream]
  | cons cp rest ih =>
    obtain ⟨c, post⟩ := cp
    rw [runStream]
    rw [abstracted_next_nonterminal _ _ _ (h (c, post) (List.mem_cons_self _ _))]
    simp only [Option.bind_eq_bind, Option.some_bind]
    rw [ih (b ++ [c]) (fun x hx => h x (List.mem_cons_of_mem _ hx))]
    simp [List.append_assoc]

/-- Running the proxy over a concatenation of chunk lists splits into the
two runs with the outputs concatenated. -/
theorem runStream_append (p : Proxy) (l1 l2 : List (Chunk × PostResult)) :
    runStream p (l1 ++ l2) =
      (runStream p l1).bind fun x =>
        (runStream x.1 l2).map fun y => (y.1, x.2 ++ y.2) := by
  induction l1 generalizing p with
  | nil =>
    rw [List.nil_append]
    cases h : runStream p l2 with
    | none => simp [runStream, h]
    | some y => simp [runStream, h]
  | cons cp rest ih =>
    obtain ⟨c, post⟩ := cp
    rw [List.cons_append, runStream, runStream]
    cases h : abstracted_next p c post with
    | none => rfl
    | some r =>
      obtain ⟨p1, ret, ev⟩ := r
      simp only [Option.bind_eq_bind, Option.some_bind]
      rw [ih p1]
      cases h1 : runStream p1 rest with
      | none => rfl
      | some x =>
        obtain ⟨p2, outs⟩ := x
        cases h2 : runStream p2 l2 with
        | none => simp [h2]
        | some y => simp [h2]

/-- C7: a dispatch occurs only on a chunk satisfying the termination
check. First: a run over non-terminal chunks makes zero Transport calls
(abandoning iteration early dispatches nothing). Second: whenever a step
dispatches, the chunk was terminal and the dispatched buffer is the prior
buffer plus the terminal chunk, hence non-empty. -/
theorem C7_dispatch_only_on_terminal :
    (∀ (pt : String) (rpl : Bool) (cs : List (Chunk × PostResult)) (b : List Chunk),
      (∀ cp ∈ cs, isTerminal pt cp.1 = some false) →
      runStream { provider_type := pt, return_pl_id := rpl, results := b } cs =
        some ({ provider_type := pt, return_pl_id := rpl, results := b ++ cs.map Prod.fst },
          cs.map fun cp => ((if rpl then StepReturn.paired cp.1 none else .bare cp.1), none)))
    ∧ (∀ (p : Proxy) (c : Chunk) (post : PostResult)
        (r : Proxy × StepReturn × Option (List Chunk × CleanedOutput)),
        abstracted_next p c post = some r →
        ∀ buf cl, r.2.2 = some (buf, cl) →
        isTerminal p.provider_type c = some true ∧ buf = p.results ++ [c] ∧ buf ≠ []) := by
  constructor
  · exact fun pt rpl cs b h => runStream_nonterminal pt rpl b cs h
  · intro p c post r hr buf cl hev
    unfold abstracted_next at hr
    rcases ht : isTerminal p.provider_type c with _ | term
    · rw [ht] at hr; exact absurd hr (by simp)
    · rw [ht] at hr
      simp only [Option.bind_eq_bind, Option.some_bind] at hr
      cases term with
      | false =>
        rw [if_neg Bool.false_ne_true] at hr
        obtain rfl : _ = r := Option.some.inj hr
        simp at hev
      | true =>
        rw [if_pos rfl] at hr
        rcases hcr : cleaned_result p.provider_type (p.results ++ [c]) with ⟨rs2, cl2⟩
        rw [hcr] at hr
        rcases cl2 with _ | o
        · exact absurd hr (by simp)
        · rcases hex : exceptValue (promptlayer_api_request p.return_pl_id post).1 with _ | rid
          · rw [hex] at hr; exact absurd hr (by simp)
          · rw [hex] at hr
            simp only [Option.bind_eq_bind, Option.some_bind, Option.pure_def] at hr
            obtain rfl : _ = r := Option.some.inj hr
            simp only [Option.some.injEq, Prod.mk.injEq] at hev
            obtain ⟨h1, h2⟩ := hev
            exact ⟨rfl, h1.symm, by rw [← h1]; simp⟩

/-- Witness for C7: two non-terminal openai chunks are forwarded with no
dispatch at all. -/
theorem C7_dispatch_only_on_terminal_witness :
    runStream { provider_type := "openai", return_pl_id := false, results := [] }
      [({ choices := [{}] }, .raised), ({ choices := [{}] }, .raised)] =
    some ({ provider_type := "openai", return_pl_id := false,
            results := [{ choices := [{}] }, { choices := [{}] }] },
      [(.bare { choices := [{}] }, none), (.bare { choices := [{}] }, none)]) := by
  have h := C7_dispatch_only_on_terminal.1 "openai" false
    [({ choices := [{}] }, .raised), ({ choices := [{}] }, .raised)] [] (by decide)
  simpa using h

/-- C1: iterating the proxy over N non-terminal chunks followed by one
terminal chunk (whose reassembly and dispatch succeed) yields exactly one
output per input chunk, in arrival order: with `return_pl_id` false every
output is the original chunk unchanged, and with it true every output is
the pair of the chunk with a correlation id that is null on every
non-terminal chunk and equals the id returned by dispatch on the terminal
chunk. -/
theorem C1_transparent_iteration (pt : String) (rpl : Bool)
    (pre : List Chunk) (t : Chunk)
    (posts : List PostResult) (tpost : PostResult)
    (out : CleanedOutput) (rid : Option RequestId)
    (hlen : posts.length = pre.length)
    (hpre : ∀ c ∈ pre, isTerminal pt c = some false)
    (ht : isTerminal pt t = some true)
    (hcl : (cleaned_result pt (pre ++ [t])).2 = some out)
    (hapi : (promptlayer_api_request rpl tpost).1 = Except.ok rid) :
    runStream { provider_type := pt, return_pl_id := rpl, results := [] }
        (pre.zip posts ++ [(t, tpost)]) =
      some ({ provider_type := pt, return_pl_id := rpl, results := pre ++ [t] },
        (pre.map fun c => ((if rpl then StepReturn.paired c none else .bare c), none))
          ++ [((if rpl then StepReturn.paired t rid else .bare t), some (pre ++ [t], out))]) := by
  rw [runStream_append]
  have h1 := runStream_nonterminal pt rpl [] (pre.zip posts)
    (fun cp hcp => by
      obtain ⟨c, post⟩ := cp
      exact hpre c (List.of_mem_zip hcp).1)
  have hmapfst : (pre.zip posts).map Prod.fst = pre :=
    List.map_fst_zip pre posts (le_of_eq hlen.symm)
  rw [h1, hmapfst]
  have hstep := abstracted_next_terminal
    { provider_type := pt, return_pl_id := rpl, results := pre } t tpost out rid ht hcl hapi
  simp only [Option.bind_eq_bind, Option.some_bind, List.nil_append]
  rw [runStream, hstep]
  simp only [Option.bind_eq_bind, Option.some_bind, runStream, Option.pure_def,
    Option.map_some]
  refine congrArg some (Prod.mk.injEq _ _ _ _ ▸ ⟨rfl, ?_⟩)
  have hmm : (pre.zip posts).map
      (fun cp => ((if rpl then StepReturn.paired cp.1 none else .bare cp.1),
        (none : Option (List Chunk × CleanedOutput))))
      = ((pre.zip posts).map Prod.fst).map
          (fun c => ((if rpl then StepReturn.paired c none else .bare c), none)) := by
    rw [List.map_map]
    rfl
  rw [hmm, hmapfst]

/-- Witness for C1 on a two-chunk anthropic stream with `return_pl_id`
set: the non-terminal chunk is paired with a null id, the terminal chunk
with the id the backend returned. -/
theorem C1_transparent_iteration_witness :
    runStream { provider_type := "anthropic", return_pl_id := true, results := [] }
        ([({ completion := some "fo", stop_reason := some none } : Chunk)].zip
            [PostResult.raised]
          ++ [(({ completion := some "o", stop_reason := some (some "stop_sequence") } : Chunk),
               PostResult.resp { status_code := 200, body := some (some 7) })]) =
      some ({ provider_type := "anthropic", return_pl_id := true,
              results := [{ completion := some "fo", stop_reason := some none }]
                ++ [{ completion := some "o", stop_reason := some (some "stop_sequence") }] },
        ([({ completion := some "fo", stop_reason := some none } : Chunk)].map fun c =>
            ((if true then StepReturn.paired c none else .bare c), none))
          ++ [((if true then
                  StepReturn.paired
                    { completion := some "o", stop_reason := some (some "stop_sequence") } (some 7)
                else .bare { completion := some "o", stop_reason := some (some "stop_sequence") }),
               some ([{ completion := some "fo", stop_reason := some none }]
                  ++ [{ completion := some "o", stop_reason := some (some "stop_sequence") }],
                .chunk { completion := some "foo",
                         stop_reason := some (some "stop_sequence") }))]) := by
  have h := C1_transparent_iteration "anthropic" true
    [{ completion := some "fo", stop_reason := some none }]
    { completion := some "o", stop_reason := some (some "stop_sequence") }
    [PostResult.raised]
    (PostResult.resp { status_code := 200, body := some (some 7) })
    (.chunk { completion := some "foo", stop_reason := some (some "stop_sequence") })
    (some 7) rfl (by decide) (by decide) (by decide) rfl
  exact h

end PromptLayer
